import Mathlib

/-!
Verification development for the `stac` crate: a typed object model for
SpatioTemporal Asset Catalog (STAC) JSON documents.

The shallow embedding below models JSON values as an inductive type,
the crate's error taxonomy as an inductive `Error`, and the three
document kinds (Item/Record, Catalog, Collection) plus the polymorphic
`Value` as Lean structures with explicit open "additional_fields"
mappings.  The discriminator-enforcement helpers `deserialize_type` and
`serialize_type` are translated directly from `src/stac/src/lib.rs`;
the document kinds, link/href resolution and the I/O boundary are
modelled from the specification (their source modules are declared in
`lib.rs` but live outside the provided sources).
-/

/-- A JSON value.  Objects are ordered association lists of fields (key
order is observable on the wire but equality of serializations below is
exact, which is stronger than the order-insensitive structural equality
the round-trip contract demands).  Numbers are modelled as integers;
no claim inspects numeric content. -/
inductive Json where
  | null : Json
  | bool (b : Bool) : Json
  | num (n : Int) : Json
  | str (s : String) : Json
  | arr (elems : List Json) : Json
  | obj (fields : List (String × Json)) : Json

/-- The crate's error taxonomy (`error.rs` is outside the provided
sources; constructors follow the spec's error kinds, with
`invalidValue` mirroring `serde::de::Error::invalid_value` as produced
by `deserialize_type`, and `serCustom` mirroring
`serde::ser::Error::custom` as produced by `serialize_type`). -/
inductive Error where
  | invalidValue (unexpected : String) (expected : String) : Error
  | serCustom (msg : String) : Error
  | missingField (field : String) : Error
  | invalidType (msg : String) : Error
  | unresolvedHref : Error
  | invalidLocation (loc : String) : Error
  | unsupportedLocation (loc : String) : Error
  | ioError (msg : String) : Error
deriving DecidableEq

/-- `Error.isParse e` holds for errors produced while parsing a
document (discriminator mismatch, missing field, wrong shape). -/
def Error.isParse : Error → Bool
  | Error.invalidValue _ _ => true
  | Error.missingField _ => true
  | Error.invalidType _ => true
  | _ => false

/-- `Error.isIoFailure e` holds for errors passed through from the
underlying byte-fetch step. -/
def Error.isIoFailure : Error → Bool
  | Error.ioError _ => true
  | _ => false

/-- `Error.isUnsupportedLocation e` holds for the dedicated
unsupported-location error. -/
def Error.isUnsupportedLocation : Error → Bool
  | Error.unsupportedLocation _ => true
  | _ => false

/-- Translation of `deserialize_type` (src/stac/src/lib.rs:165-182):
deserialize the discriminator string and reject it unless it equals
`expected`, reporting both the unexpected and the expected string. -/
def deserialize_type (type : String) (expected : String) : Except Error String :=
  if type ≠ expected then
    Except.error (Error.invalidValue type expected)
  else
    Except.ok type

/-- Translation of `serialize_type` (src/stac/src/lib.rs:184-201):
serializing the discriminator fails unless it equals `expected`;
on success the string is emitted unchanged. -/
def serialize_type (type : String) (expected : String) : Except Error String :=
  if type ≠ expected then
    Except.error (Error.serCustom
      ("type field must be '" ++ expected ++ "', got: '" ++ type ++ "'"))
  else
    Except.ok type

/-- `STAC_VERSION` (src/stac/src/lib.rs:160). -/
def STAC_VERSION : String := "1.0.0"

/-- Modelled from the spec: the Record/Item discriminator constant
(`ITEM_TYPE`, re-exported by lib.rs from the missing `item` module;
a Record is a GeoJSON Feature). -/
def ITEM_TYPE : String := "Feature"

/-- Modelled from the spec: the Catalog discriminator constant
(`CATALOG_TYPE`, re-exported by lib.rs from the missing `catalog`
module). -/
def CATALOG_TYPE : String := "Catalog"

/-- Modelled from the spec: the Collection discriminator constant
(`COLLECTION_TYPE`, re-exported by lib.rs from the missing
`collection` module). -/
def COLLECTION_TYPE : String := "Collection"

/-- Modelled from the spec: the sequence-of-Records discriminator
constant (`ITEM_COLLECTION_TYPE`, re-exported by lib.rs from the
missing `item_collection` module). -/
def ITEM_COLLECTION_TYPE : String := "FeatureCollection"

/-- First value bound to `key` in an ordered JSON object, scanning in
order. -/
def getField : List (String × Json) → String → Option Json
  | [], _ => none
  | (k, v) :: rest, key => if k = key then some v else getField rest key

/-- Extract a required string member. -/
def reqStr (fields : List (String × Json)) (key : String) : Except Error String :=
  match getField fields key with
  | some (Json.str s) => Except.ok s
  | some _ => Except.error (Error.invalidType key)
  | none => Except.error (Error.missingField key)

/-- Extract an optional string member. -/
def optStr (fields : List (String × Json)) (key : String) :
    Except Error (Option String) :=
  match getField fields key with
  | some (Json.str s) => Except.ok (some s)
  | some _ => Except.error (Error.invalidType key)
  | none => Except.ok none

/-- Extract a required member of any JSON shape. -/
def reqJson (fields : List (String × Json)) (key : String) : Except Error Json :=
  match getField fields key with
  | some v => Except.ok v
  | none => Except.error (Error.missingField key)

/-- A JSON value that must be a string. -/
def getStrE (j : Json) : Except Error String :=
  match j with
  | Json.str s => Except.ok s
  | _ => Except.error (Error.invalidType "expected a string")

/-- Extract an optional array-of-strings member. -/
def optStrList (fields : List (String × Json)) (key : String) :
    Except Error (Option (List String)) :=
  match getField fields key with
  | some (Json.arr elems) => (elems.mapM getStrE).map Option.some
  | some _ => Except.error (Error.invalidType key)
  | none => Except.ok none

/-- Serialization entry for an optional string field: omitted when
absent (serde `skip_serializing_if` semantics). -/
def optEntryStr (key : String) : Option String → List (String × Json)
  | none => []
  | some s => [(key, Json.str s)]

/-- Serialization entry for an optional opaque JSON field. -/
def optEntryJson (key : String) : Option Json → List (String × Json)
  | none => []
  | some v => [(key, v)]

/-- Serialization entry for an optional list-of-strings field. -/
def optEntryStrList (key : String) : Option (List String) → List (String × Json)
  | none => []
  | some xs => [(key, Json.arr (xs.map Json.str))]

/-- True when no field of `fields` uses a key from `keys`. -/
def keysDisjoint (fields : List (String × Json)) (keys : List String) : Bool :=
  fields.all (fun p => !(keys.contains p.1))

/-- Drop the fields whose key appears in `keys`; what remains is the
open mapping of unknown/foreign members. -/
def stripKeys (fields : List (String × Json)) (keys : List String) :
    List (String × Json) :=
  fields.filter (fun p => !(keys.contains p.1))

/-- Modelled from the spec: a Link record — `href`, `rel`, optional
media type (wire key "type"), optional `title`, plus an open mapping of
additional fields preserved verbatim (`link.rs` is outside the
provided sources). -/
structure Link where
  href : String
  rel : String
  media_type : Option String
  title : Option String
  additional_fields : List (String × Json)

/-- The wire keys a Link models as typed fields. -/
def linkKeys : List String := ["href", "rel", "type", "title"]

/-- Serialize a Link to its JSON object form; links carry no
discriminator, so serialization is total. -/
def Link.toJson (l : Link) : Json :=
  Json.obj ([("href", Json.str l.href), ("rel", Json.str l.rel)] ++
    optEntryStr "type" l.media_type ++
    optEntryStr "title" l.title ++
    l.additional_fields)

/-- Deserialize a Link from a JSON value; unknown members land in
`additional_fields` verbatim. -/
def Link.fromJson : Json → Except Error Link
  | Json.obj fields => do
    let href ← reqStr fields "href"
    let rel ← reqStr fields "rel"
    let media_type ← optStr fields "type"
    let title ← optStr fields "title"
    Except.ok { href := href, rel := rel, media_type := media_type, title := title,
                additional_fields := stripKeys fields linkKeys }
  | _ => Except.error (Error.invalidType "expected a link object")

/-- A Link is well formed when its open mapping does not shadow a
typed key (exactly the shape deserialization produces). -/
def Link.wf (l : Link) : Bool :=
  keysDisjoint l.additional_fields linkKeys

/-- Modelled from the spec: an Asset record — `href`, optional title,
description and media type (wire key "type"), optional roles, plus an
open mapping of additional fields (`asset.rs` is outside the provided
sources). -/
structure Asset where
  href : String
  title : Option String
  description : Option String
  media_type : Option String
  roles : Option (List String)
  additional_fields : List (String × Json)

/-- The wire keys an Asset models as typed fields. -/
def assetKeys : List String := ["href", "title", "description", "type", "roles"]

/-- Serialize an Asset to its JSON object form. -/
def Asset.toJson (a : Asset) : Json :=
  Json.obj ([("href", Json.str a.href)] ++
    optEntryStr "title" a.title ++
    optEntryStr "description" a.description ++
    optEntryStr "type" a.media_type ++
    optEntryStrList "roles" a.roles ++
    a.additional_fields)

/-- Deserialize an Asset from a JSON value. -/
def Asset.fromJson : Json → Except Error Asset
  | Json.obj fields => do
    let href ← reqStr fields "href"
    let title ← optStr fields "title"
    let description ← optStr fields "description"
    let media_type ← optStr fields "type"
    let roles ← optStrList fields "roles"
    Except.ok { href := href, title := title, description := description,
                media_type := media_type, roles := roles,
                additional_fields := stripKeys fields assetKeys }
  | _ => Except.error (Error.invalidType "expected an asset object")

/-- An Asset is well formed when its open mapping does not shadow a
typed key. -/
def Asset.wf (a : Asset) : Bool :=
  keysDisjoint a.additional_fields assetKeys

/-- Modelled from the spec: the Record/Item document kind — id,
optional geometry and bounding box (opaque JSON values), an open
properties mapping, an ordered link list, a name→Asset mapping, an
optional collection back-reference, an extension set, the fixed
discriminator, and the side-band origin href (`item.rs` is outside the
provided sources). -/
structure Item where
  type : String
  version : String
  extensions : Option (List String)
  id : String
  geometry : Option Json
  bbox : Option Json
  properties : Json
  links : List Link
  assets : List (String × Asset)
  collection : Option String
  additional_fields : List (String × Json)
  href : Option String

/-- The wire keys an Item models as typed fields. -/
def itemKeys : List String :=
  ["type", "stac_version", "stac_extensions", "id", "geometry", "bbox",
   "properties", "links", "assets", "collection"]

/-- Modelled from the spec: `Item::new` fills required fields with
spec-sensible defaults; the origin href is unset. -/
def Item.new (id : String) : Item :=
  { type := ITEM_TYPE, version := STAC_VERSION, extensions := none, id := id,
    geometry := none, bbox := none, properties := Json.obj [], links := [],
    assets := [], collection := none, additional_fields := [], href := none }

/-- Serialize an Item; the discriminator is routed through
`serialize_type` and the href never appears in the body. -/
def Item.toJson (i : Item) : Except Error Json := do
  let t ← serialize_type i.type ITEM_TYPE
  Except.ok (Json.obj (
    [("type", Json.str t), ("stac_version", Json.str i.version)] ++
    optEntryStrList "stac_extensions" i.extensions ++
    [("id", Json.str i.id)] ++
    optEntryJson "geometry" i.geometry ++
    optEntryJson "bbox" i.bbox ++
    [("properties", i.properties),
     ("links", Json.arr (i.links.map Link.toJson)),
     ("assets", Json.obj (i.assets.map (fun p => (p.1, Asset.toJson p.2))))] ++
    optEntryStr "collection" i.collection ++
    i.additional_fields))

/-- Deserialize the ordered link list member. -/
def reqLinks (fields : List (String × Json)) : Except Error (List Link) :=
  match getField fields "links" with
  | some (Json.arr elems) => elems.mapM Link.fromJson
  | some _ => Except.error (Error.invalidType "links")
  | none => Except.error (Error.missingField "links")

/-- Deserialize the name→Asset mapping member. -/
def reqAssets (fields : List (String × Json)) :
    Except Error (List (String × Asset)) :=
  match getField fields "assets" with
  | some (Json.obj entries) =>
      entries.mapM (fun p => (Asset.fromJson p.2).map (fun a => (p.1, a)))
  | some _ => Except.error (Error.invalidType "assets")
  | none => Except.error (Error.missingField "assets")

/-- Deserialize an Item; the discriminator is routed through
`deserialize_type`, unknown members land in `additional_fields`, and
the href is left unset (the I/O boundary attaches it afterwards). -/
def Item.fromJson : Json → Except Error Item
  | Json.obj fields => do
    let tRaw ← reqStr fields "type"
    let t ← deserialize_type tRaw ITEM_TYPE
    let version ← reqStr fields "stac_version"
    let extensions ← optStrList fields "stac_extensions"
    let id ← reqStr fields "id"
    let properties ← reqJson fields "properties"
    let links ← reqLinks fields
    let assets ← reqAssets fields
    let collection ← optStr fields "collection"
    Except.ok { type := t, version := version, extensions := extensions, id := id,
                geometry := getField fields "geometry",
                bbox := getField fields "bbox",
                properties := properties, links := links, assets := assets,
                collection := collection,
                additional_fields := stripKeys fields itemKeys, href := none }
  | _ => Except.error (Error.invalidType "expected an item object")

/-- An Item is well formed when its discriminator equals the constant,
its open mapping does not shadow a typed key, and its links and assets
are well formed. -/
def Item.wf (i : Item) : Bool :=
  i.type = ITEM_TYPE && keysDisjoint i.additional_fields itemKeys &&
  i.links.all Link.wf && i.assets.all (fun p => p.2.wf)

/-- Modelled from the spec: the Catalog document kind — id,
description, links, extension set, fixed discriminator, side-band
href (`catalog.rs` is outside the provided sources). -/
structure Catalog where
  type : String
  version : String
  extensions : Option (List String)
  id : String
  description : String
  links : List Link
  additional_fields : List (String × Json)
  href : Option String

/-- The wire keys a Catalog models as typed fields. -/
def catalogKeys : List String :=
  ["type", "stac_version", "stac_extensions", "id", "description", "links"]

/-- Modelled from the spec: `Catalog::new` fills required fields with
defaults; the origin href is unset. -/
def Catalog.new (id : String) (description : String) : Catalog :=
  { type := CATALOG_TYPE, version := STAC_VERSION, extensions := none, id := id,
    description := description, links := [], additional_fields := [],
    href := none }

/-- Serialize a Catalog. -/
def Catalog.toJson (c : Catalog) : Except Error Json := do
  let t ← serialize_type c.type CATALOG_TYPE
  Except.ok (Json.obj (
    [("type", Json.str t), ("stac_version", Json.str c.version)] ++
    optEntryStrList "stac_extensions" c.extensions ++
    [("id", Json.str c.id), ("description", Json.str c.description),
     ("links", Json.arr (c.links.map Link.toJson))] ++
    c.additional_fields))

/-- Deserialize a Catalog. -/
def Catalog.fromJson : Json → Except Error Catalog
  | Json.obj fields => do
    let tRaw ← reqStr fields "type"
    let t ← deserialize_type tRaw CATALOG_TYPE
    let version ← reqStr fields "stac_version"
    let extensions ← optStrList fields "stac_extensions"
    let id ← reqStr fields "id"
    let description ← reqStr fields "description"
    let links ← reqLinks fields
    Except.ok { type := t, version := version, extensions := extensions, id := id,
                description := description, links := links,
                additional_fields := stripKeys fields catalogKeys, href := none }
  | _ => Except.error (Error.invalidType "expected a catalog object")

/-- A Catalog is well formed when its discriminator equals the
constant, its open mapping does not shadow a typed key, and its links
are well formed. -/
def Catalog.wf (c : Catalog) : Bool :=
  c.type = CATALOG_TYPE && keysDisjoint c.additional_fields catalogKeys &&
  c.links.all Link.wf

/-- Modelled from the spec: the Collection document kind — all Catalog
fields plus extent, providers, summaries and assets; extent is
required, the rest optional.  Their internal shapes are opaque JSON
values here: no claim inspects them and the open-mapping round-trip
argument treats them verbatim (`collection.rs` is outside the provided
sources). -/
structure Collection where
  type : String
  version : String
  extensions : Option (List String)
  id : String
  description : String
  extent : Json
  providers : Option Json
  summaries : Option Json
  assets : Option Json
  links : List Link
  additional_fields : List (String × Json)
  href : Option String

/-- The wire keys a Collection models as typed fields. -/
def collectionKeys : List String :=
  ["type", "stac_version", "stac_extensions", "id", "description", "extent",
   "providers", "summaries", "assets", "links"]

/-- Modelled from the spec: `Collection::new` fills required fields
with defaults; the origin href is unset. -/
def Collection.new (id : String) (description : String) : Collection :=
  { type := COLLECTION_TYPE, version := STAC_VERSION, extensions := none,
    id := id, description := description, extent := Json.obj [],
    providers := none, summaries := none, assets := none, links := [],
    additional_fields := [], href := none }

/-- Serialize a Collection. -/
def Collection.toJson (c : Collection) : Except Error Json := do
  let t ← serialize_type c.type COLLECTION_TYPE
  Except.ok (Json.obj (
    [("type", Json.str t), ("stac_version", Json.str c.version)] ++
    optEntryStrList "stac_extensions" c.extensions ++
    [("id", Json.str c.id), ("description", Json.str c.description),
     ("extent", c.extent)] ++
    optEntryJson "providers" c.providers ++
    optEntryJson "summaries" c.summaries ++
    optEntryJson "assets" c.assets ++
    [("links", Json.arr (c.links.map Link.toJson))] ++
    c.additional_fields))

/-- Deserialize a Collection. -/
def Collection.fromJson : Json → Except Error Collection
  | Json.obj fields => do
    let tRaw ← reqStr fields "type"
    let t ← deserialize_type tRaw COLLECTION_TYPE
    let version ← reqStr fields "stac_version"
    let extensions ← optStrList fields "stac_extensions"
    let id ← reqStr fields "id"
    let description ← reqStr fields "description"
    let extent ← reqJson fields "extent"
    let links ← reqLinks fields
    Except.ok { type := t, version := version, extensions := extensions, id := id,
                description := description, extent := extent,
                providers := getField fields "providers",
                summaries := getField fields "summaries",
                assets := getField fields "assets",
                links := links,
                additional_fields := stripKeys fields collectionKeys,
                href := none }
  | _ => Except.error (Error.invalidType "expected a collection object")

/-- A Collection is well formed when its discriminator equals the
constant, its open mapping does not shadow a typed key, and its links
are well formed. -/
def Collection.wf (c : Collection) : Bool :=
  c.type = COLLECTION_TYPE && keysDisjoint c.additional_fields collectionKeys &&
  c.links.all Link.wf

/-- Modelled from the spec: the sequence-of-Records kind, serialized
as a JSON array of record bodies; the href is side-band
(`item_collection.rs` is outside the provided sources). -/
structure ItemCollection where
  items : List Item
  href : Option String

/-- Serialize an ItemCollection as a JSON array of its records. -/
def ItemCollection.toJson (ic : ItemCollection) : Except Error Json :=
  (ic.items.mapM Item.toJson).map Json.arr

/-- Deserialize an ItemCollection from a JSON array. -/
def ItemCollection.fromJson : Json → Except Error ItemCollection
  | Json.arr elems =>
      (elems.mapM Item.fromJson).map (fun items => { items := items, href := none })
  | _ => Except.error (Error.invalidType "expected an array of items")

/-- An ItemCollection is well formed when all its records are. -/
def ItemCollection.wf (ic : ItemCollection) : Bool :=
  ic.items.all Item.wf

/-- Modelled from the spec: the polymorphic document value — a tagged
union over the three kinds plus the sequence-of-Records variant
(`value.rs` is outside the provided sources). -/
inductive Value where
  | item (i : Item) : Value
  | catalog (c : Catalog) : Value
  | collection (c : Collection) : Value
  | itemCollection (ic : ItemCollection) : Value

/-- Modelled from the spec: polymorphic deserialization peeks the
discriminator without committing to a concrete kind and dispatches; a
JSON array of record bodies becomes the sequence-of-Records variant; a
discriminator matching no kind, or a missing discriminator, fails with
a parse error naming the offending field. -/
def Value.fromJson : Json → Except Error Value
  | Json.arr elems => (ItemCollection.fromJson (Json.arr elems)).map Value.itemCollection
  | Json.obj fields =>
    match getField fields "type" with
    | some (Json.str t) =>
        if t = ITEM_TYPE then (Item.fromJson (Json.obj fields)).map Value.item
        else if t = CATALOG_TYPE then
          (Catalog.fromJson (Json.obj fields)).map Value.catalog
        else if t = COLLECTION_TYPE then
          (Collection.fromJson (Json.obj fields)).map Value.collection
        else Except.error (Error.invalidValue t "type")
    | some _ => Except.error (Error.invalidType "type")
    | none => Except.error (Error.missingField "type")
  | _ => Except.error (Error.invalidType "expected a STAC object or array")

/-- Polymorphic serialization delegates to the matching kind's
serializer. -/
def Value.toJson : Value → Except Error Json
  | Value.item i => Item.toJson i
  | Value.catalog c => Catalog.toJson c
  | Value.collection c => Collection.toJson c
  | Value.itemCollection ic => ItemCollection.toJson ic

/-- A Value is well formed when its payload is. -/
def Value.wf : Value → Bool
  | Value.item i => i.wf
  | Value.catalog c => c.wf
  | Value.collection c => c.wf
  | Value.itemCollection ic => ic.wf

/-- The Href capability's getter, per kind (`href.rs` is outside the
provided sources). -/
def Value.href : Value → Option String
  | Value.item i => i.href
  | Value.catalog c => c.href
  | Value.collection c => c.href
  | Value.itemCollection ic => ic.href

/-- The Href capability's setter, per kind. -/
def Value.set_href : Value → String → Value
  | Value.item i, s => Value.item { i with href := some s }
  | Value.catalog c, s => Value.catalog { c with href := some s }
  | Value.collection c, s => Value.collection { c with href := some s }
  | Value.itemCollection ic, s => Value.itemCollection { ic with href := some s }

/-- Modelled from the spec: whether a location string names a network
transport (URL). -/
def isUrl (s : String) : Bool :=
  "http://".toList.isPrefixOf s.toList || "https://".toList.isPrefixOf s.toList

/-- Modelled from the spec: whether a Link href is already absolute
(URL or rooted filesystem path); an absolute href resolves to itself. -/
def isAbsoluteHref (s : String) : Bool :=
  isUrl s ||
  (match s.toList with
   | '/' :: _ => true
   | _ => false)

/-- Modelled from the spec: relative-href resolution.  An absolute
Link href is returned unchanged; a relative one is resolved against
the owning document's href by replacing the document href's final
segment; with no document href, resolution fails with unresolved-href;
a document href with no separator cannot serve as a base and fails
with invalid-location.  Dot-segment normalization is out of scope for
the claims. -/
def resolve_href (docHref : Option String) (linkHref : String) :
    Except Error String :=
  if isAbsoluteHref linkHref then Except.ok linkHref
  else
    match docHref with
    | none => Except.error Error.unresolvedHref
    | some base =>
      let dir := (base.toList.reverse.dropWhile (fun c => c ≠ '/')).reverse
      if dir.isEmpty then Except.error (Error.invalidLocation base)
      else Except.ok (String.mk (dir ++ linkHref.toList))

/-- Modelled from the spec: the I/O boundary `read` for a build
without network support.  `fetch` is the byte-fetch collaborator
(location → parsed JSON or an I/O failure message); a URL location
fails with unsupported-location before any fetch; on success the
resolved location is attached via the Href setter before returning. -/
def stac.read (fetch : String → Except String Json) (location : String) :
    Except Error Value :=
  if isUrl location then Except.error (Error.unsupportedLocation location)
  else
    match fetch location with
    | Except.error msg => Except.error (Error.ioError msg)
    | Except.ok j =>
      match Value.fromJson j with
      | Except.error e => Except.error e
      | Except.ok v => Except.ok (v.set_href location)

/-- A sample well-formed Item carrying unknown members at every level,
used to exercise the theorems on concrete input. -/
def itemW : Item :=
  { type := ITEM_TYPE, version := STAC_VERSION, extensions := none,
    id := "an-id", geometry := none, bbox := none,
    properties := Json.obj [("datetime", Json.str "2023-01-01T00:00:00Z")],
    links := [{ href := "./other.json", rel := "child", media_type := none,
                title := none,
                additional_fields := [("extra", Json.bool true)] }],
    assets := [("data", { href := "https://example.org/a.tif", title := none,
                          description := none, media_type := none,
                          roles := none,
                          additional_fields := [("bytes", Json.num 42)] })],
    collection := none,
    additional_fields := [("foo", Json.str "bar")], href := none }

/-- A sample Item whose in-memory discriminator has been mutated away
from the Item constant. -/
def itemBadW : Item :=
  { itemW with type := CATALOG_TYPE }

/-- A sample byte-fetch collaborator returning a fixed catalog body. -/
def fetchW : String → Except String Json :=
  fun _ => Except.ok (Json.obj
    [("type", Json.str "Catalog"), ("stac_version", Json.str "1.0.0"),
     ("id", Json.str "c"), ("description", Json.str "d"),
     ("links", Json.arr [])])

/-- The Value that `stac.read fetchW "data/catalog.json"` produces. -/
def valueW : Value :=
  Value.catalog
    { type := "Catalog", version := "1.0.0", extensions := none, id := "c",
      description := "d", links := [], additional_fields := [],
      href := some "data/catalog.json" }

/-- Reduction of bind on a successful Except value. -/
@[simp] theorem exc_ok_bind {E A B : Type} (a : A) (f : A → Except E B) :
    (Except.ok a >>= f) = f a := rfl

/-- Reduction of bind on a failed Except value. -/
@[simp] theorem exc_error_bind {E A B : Type} (e : E) (f : A → Except E B) :
    ((Except.error e : Except E A) >>= f) = Except.error e := rfl

/-- Reduction of map on a successful Except value. -/
@[simp] theorem exc_map_ok {E A B : Type} (g : A → B) (a : A) :
    ((Except.ok a : Except E A).map g) = Except.ok (g a) := rfl

/-- Reduction of map on a failed Except value. -/
@[simp] theorem exc_map_error {E A B : Type} (g : A → B) (e : E) :
    ((Except.error e : Except E A).map g) = Except.error e := rfl

/-- Destructor for a successful bind. -/
theorem exc_bind_ok {E A B : Type} {x : Except E A} {f : A → Except E B} {b : B}
    (h : x >>= f = Except.ok b) : ∃ a, x = Except.ok a ∧ f a = Except.ok b := by
  cases x with
  | error e => rw [exc_error_bind] at h; exact absurd h (by simp)
  | ok a => exact ⟨a, rfl, h⟩

/-- Destructor for a successful map. -/
theorem exc_map_eq_ok {E A B : Type} {x : Except E A} {g : A → B} {b : B}
    (h : x.map g = Except.ok b) : ∃ a, x = Except.ok a ∧ g a = b := by
  cases x with
  | error e => exact absurd h (by simp)
  | ok a =>
    rw [exc_map_ok] at h
    exact ⟨a, rfl, (Except.ok.injEq _ _).mp h⟩

/-- `deserialize_type` succeeds only by returning the string unchanged,
and only when it equals the expected constant. -/
theorem deserialize_type_ok {s expected t : String}
    (h : deserialize_type s expected = Except.ok t) : t = s ∧ t = expected := by
  by_cases hne : s ≠ expected
  · simp [deserialize_type, hne] at h
  · push_neg at hne
    subst hne
    simp [deserialize_type] at h
    exact ⟨h.symm, h.symm⟩

/-- `deserialize_type` accepts the expected constant. -/
theorem deserialize_type_self (expected : String) :
    deserialize_type expected expected = Except.ok expected := by
  simp [deserialize_type]

/-- `deserialize_type` rejects any other string with an invalid-value
error carrying both strings. -/
theorem deserialize_type_ne {s expected : String} (h : s ≠ expected) :
    deserialize_type s expected = Except.error (Error.invalidValue s expected) := by
  simp [deserialize_type, h]

/-- `serialize_type` emits the matching discriminator unchanged. -/
theorem serialize_type_self (expected : String) :
    serialize_type expected expected = Except.ok expected := by
  simp [serialize_type]

/-- `serialize_type` rejects a mutated discriminator with a custom
error naming both strings. -/
theorem serialize_type_ne {s expected : String} (h : s ≠ expected) :
    serialize_type s expected = Except.error (Error.serCustom
      ("type field must be '" ++ expected ++ "', got: '" ++ s ++ "'")) := by
  simp [serialize_type, h]

/-- Lookup distributes over append, preferring the left list. -/
theorem getField_append (l₁ l₂ : List (String × Json)) (key : String) :
    getField (l₁ ++ l₂) key =
      match getField l₁ key with
      | some v => some v
      | none => getField l₂ key := by
  induction l₁ with
  | nil => simp [getField]
  | cons p rest ih =>
    obtain ⟨k, v⟩ := p
    by_cases hk : k = key
    · simp [getField, hk]
    · simp [getField, hk, ih]

/-- Disjointness of a cons cell splits. -/
theorem keysDisjoint_cons {k : String} {v : Json} {rest : List (String × Json)}
    {keys : List String} :
    keysDisjoint ((k, v) :: rest) keys = true ↔
      (k ∉ keys ∧ keysDisjoint rest keys = true) := by
  simp [keysDisjoint, List.all_cons]

/-- Lookup of a forbidden key in a disjoint open mapping misses. -/
theorem getField_disjoint {fields : List (String × Json)} {keys : List String}
    (h : keysDisjoint fields keys = true) {key : String}
    (hk : key ∈ keys) : getField fields key = none := by
  induction fields with
  | nil => rfl
  | cons p rest ih =>
    obtain ⟨k, v⟩ := p
    obtain ⟨h₁, h₂⟩ := keysDisjoint_cons.mp h
    by_cases hkk : k = key
    · subst hkk
      exact absurd hk h₁
    · rw [getField, if_neg hkk]
      exact ih h₂

/-- Filtering distributes over append. -/
theorem stripKeys_append (l₁ l₂ : List (String × Json)) (keys : List String) :
    stripKeys (l₁ ++ l₂) keys = stripKeys l₁ keys ++ stripKeys l₂ keys := by
  simp [stripKeys, List.filter_append]

/-- Stripping removes a cons cell whose key is typed. -/
theorem stripKeys_cons_mem {k : String} (v : Json) (rest : List (String × Json))
    {keys : List String} (hk : k ∈ keys) :
    stripKeys ((k, v) :: rest) keys = stripKeys rest keys := by
  simp only [stripKeys, List.filter_cons]
  rw [if_neg]
  simp [hk]

/-- Stripping an empty mapping. -/
theorem stripKeys_nil (keys : List String) : stripKeys [] keys = [] := rfl

/-- Stripping typed keys from a disjoint open mapping is the
identity. -/
theorem stripKeys_disjoint {fields : List (String × Json)} {keys : List String}
    (h : keysDisjoint fields keys = true) : stripKeys fields keys = fields := by
  induction fields with
  | nil => rfl
  | cons p rest ih =>
    obtain ⟨k, v⟩ := p
    obtain ⟨h₁, h₂⟩ := keysDisjoint_cons.mp h
    simp only [stripKeys, List.filter_cons]
    rw [if_pos (by simp [h₁])]
    have hrest : stripKeys rest keys = rest := ih h₂
    simp only [stripKeys] at hrest
    rw [hrest]

/-- Reduction of pure for Except. -/
@[simp] theorem exc_pure {E A : Type} (a : A) :
    (pure a : Except E A) = Except.ok a := rfl

/-- Reduction of the functor map on a successful Except value. -/
@[simp] theorem exc_fmap_ok {E A B : Type} (g : A → B) (a : A) :
    (g <$> (Except.ok a : Except E A)) = Except.ok (g a) := rfl

/-- Reduction of the functor map on a failed Except value. -/
@[simp] theorem exc_fmap_error {E A B : Type} (g : A → B) (e : E) :
    (g <$> (Except.error e : Except E A)) = Except.error e := rfl

/-- A mapM over mapped elements succeeds pointwise. -/
theorem mapM_map_ok {E A B : Type} (f : B → Except E A) (g : A → B)
    (xs : List A) (h : ∀ x ∈ xs, f (g x) = Except.ok x) :
    (xs.map g).mapM f = Except.ok xs := by
  rw [← List.mapM'_eq_mapM]
  induction xs with
  | nil => rfl
  | cons x rest ih =>
    have hx := h x (List.mem_cons_self x rest)
    have hrest := ih (fun y hy => h y (List.mem_cons_of_mem x hy))
    simp only [List.map_cons, List.mapM'_cons, hx, hrest, exc_ok_bind]
    rfl

/-- A failed mapM names a failing element. -/
theorem mapM_error_mem {E A B : Type} {f : B → Except E A} {xs : List B} {e : E}
    (h : xs.mapM f = Except.error e) : ∃ x ∈ xs, f x = Except.error e := by
  rw [← List.mapM'_eq_mapM] at h
  induction xs with
  | nil => exact absurd h (by simp)
  | cons x rest ih =>
    rw [List.mapM'_cons] at h
    cases hx : f x with
    | error e₁ =>
      rw [hx, exc_error_bind] at h
      obtain rfl : e₁ = e := by simpa using h
      exact ⟨x, List.mem_cons_self x rest, hx⟩
    | ok a =>
      rw [hx, exc_ok_bind] at h
      cases hrest : rest.mapM' f with
      | error e₁ =>
        rw [hrest, exc_error_bind] at h
        obtain rfl : e₁ = e := by simpa using h
        obtain ⟨y, hy, hfy⟩ := ih hrest
        exact ⟨y, List.mem_cons_of_mem x hy, hfy⟩
      | ok as =>
        rw [hrest] at h
        exact absurd h (by simp)

/-- A mapM over mapped elements succeeds pointwise (tail-recursive
loop form, as exposed when definitions unfold). -/
theorem mapM_loop_map_ok {E A B : Type} (f : B → Except E A) (g : A → B)
    (xs : List A) (h : ∀ x ∈ xs, f (g x) = Except.ok x) :
    List.mapM.loop f (xs.map g) [] = Except.ok xs :=
  mapM_map_ok f g xs h

/-- Round trip for a list of strings through JSON. -/
theorem mapM_getStrE (xs : List String) :
    ((xs.map Json.str).mapM getStrE) = Except.ok xs :=
  mapM_map_ok getStrE Json.str xs (fun _ _ => rfl)

/-- Loop form of the string-list round trip. -/
theorem mapM_loop_getStrE (xs : List String) :
    List.mapM.loop getStrE (xs.map Json.str) [] = Except.ok xs :=
  mapM_getStrE xs

/-- Round trip for a well-formed Link: deserializing its serialized
form recovers it exactly, unknown members included. -/
theorem link_roundtrip (l : Link) (h : l.wf = true) :
    Link.fromJson l.toJson = Except.ok l := by
  obtain ⟨href, rel, mt, ti, extra⟩ := l
  simp [Link.wf] at h
  have h₁ : getField extra "href" = none := getField_disjoint h (by decide)
  have h₂ : getField extra "rel" = none := getField_disjoint h (by decide)
  have h₃ : getField extra "type" = none := getField_disjoint h (by decide)
  have h₄ : getField extra "title" = none := getField_disjoint h (by decide)
  have h₅ := stripKeys_disjoint h
  simp only [linkKeys] at h₅
  cases mt <;> cases ti <;>
    simp [Link.toJson, Link.fromJson, reqStr, optStr, getField, optEntryStr,
      stripKeys_append, stripKeys_cons_mem, stripKeys_nil, linkKeys,
      h₁, h₂, h₃, h₄, h₅]

/-- Round trip for a well-formed Asset: deserializing its serialized
form recovers it exactly, unknown members included. -/
theorem asset_roundtrip (a : Asset) (h : a.wf = true) :
    Asset.fromJson a.toJson = Except.ok a := by
  obtain ⟨href, ti, de, mt, ro, extra⟩ := a
  simp [Asset.wf] at h
  have h₁ : getField extra "href" = none := getField_disjoint h (by decide)
  have h₂ : getField extra "title" = none := getField_disjoint h (by decide)
  have h₃ : getField extra "description" = none := getField_disjoint h (by decide)
  have h₄ : getField extra "type" = none := getField_disjoint h (by decide)
  have h₅ : getField extra "roles" = none := getField_disjoint h (by decide)
  have h₆ := stripKeys_disjoint h
  simp only [assetKeys] at h₆
  cases ti <;> cases de <;> cases mt <;> cases ro <;>
    simp [Asset.toJson, Asset.fromJson, reqStr, optStr, optStrList, getField,
      optEntryStr, optEntryStrList, mapM_getStrE, mapM_loop_getStrE,
      stripKeys_append, stripKeys_cons_mem, stripKeys_nil, assetKeys,
      h₁, h₂, h₃, h₄, h₅, h₆]

/-- Round trip for a well-formed Item: serialization succeeds and
deserializing the result recovers the Item exactly — unknown members
verbatim — with the side-band href cleared. -/
theorem item_roundtrip (i : Item) (h : i.wf = true) :
    ∃ j, Item.toJson i = Except.ok j ∧
      Item.fromJson j = Except.ok { i with href := none } := by
  obtain ⟨ty, ver, exts, id, geo, bb, props, links, assets, coll, extra, href⟩ := i
  simp [Item.wf] at h
  obtain ⟨⟨⟨hty, hdisj⟩, hlinks⟩, hassets⟩ := h
  subst hty
  have g₁ : getField extra "type" = none := getField_disjoint hdisj (by decide)
  have g₂ : getField extra "stac_version" = none := getField_disjoint hdisj (by decide)
  have g₃ : getField extra "stac_extensions" = none := getField_disjoint hdisj (by decide)
  have g₄ : getField extra "id" = none := getField_disjoint hdisj (by decide)
  have g₅ : getField extra "geometry" = none := getField_disjoint hdisj (by decide)
  have g₆ : getField extra "bbox" = none := getField_disjoint hdisj (by decide)
  have g₇ : getField extra "properties" = none := getField_disjoint hdisj (by decide)
  have g₈ : getField extra "links" = none := getField_disjoint hdisj (by decide)
  have g₉ : getField extra "assets" = none := getField_disjoint hdisj (by decide)
  have g₁₀ : getField extra "collection" = none := getField_disjoint hdisj (by decide)
  have hstrip := stripKeys_disjoint hdisj
  simp only [itemKeys] at hstrip
  have hl : List.mapM.loop Link.fromJson (links.map Link.toJson) [] =
      Except.ok links :=
    mapM_loop_map_ok Link.fromJson Link.toJson links
      (fun l hlmem => link_roundtrip l (hlinks l hlmem))
  have hl' : (links.map Link.toJson).mapM Link.fromJson = Except.ok links := hl
  have ha : List.mapM.loop
      (fun p => (Asset.fromJson p.2).map (fun a => (p.1, a)))
      (assets.map (fun p => (p.1, Asset.toJson p.2))) [] = Except.ok assets := by
    refine mapM_loop_map_ok _ _ assets (fun p hp => ?_)
    have := asset_roundtrip p.2 (hassets p.1 p.2 hp)
    simp [this]
  have ha' : (assets.map (fun p => (p.1, Asset.toJson p.2))).mapM
      (fun p => (Asset.fromJson p.2).map (fun a => (p.1, a))) = Except.ok assets := ha
  cases exts <;> cases geo <;> cases bb <;> cases coll <;>
    simp [Item.toJson, Item.fromJson, serialize_type, deserialize_type, ITEM_TYPE,
      reqStr, optStr, optStrList, reqJson, reqLinks, reqAssets, getField,
      optEntryStr, optEntryJson, optEntryStrList, mapM_getStrE, mapM_loop_getStrE,
      stripKeys_append, stripKeys_cons_mem, stripKeys_nil, itemKeys,
      g₁, g₂, g₃, g₄, g₅, g₆, g₇, g₈, g₉, g₁₀, hstrip, hl, hl', ha, ha']

/-- Round trip for a well-formed Catalog. -/
theorem catalog_roundtrip (c : Catalog) (h : c.wf = true) :
    ∃ j, Catalog.toJson c = Except.ok j ∧
      Catalog.fromJson j = Except.ok { c with href := none } := by
  obtain ⟨ty, ver, exts, id, desc, links, extra, href⟩ := c
  simp [Catalog.wf] at h
  obtain ⟨⟨hty, hdisj⟩, hlinks⟩ := h
  subst hty
  have g₁ : getField extra "type" = none := getField_disjoint hdisj (by decide)
  have g₂ : getField extra "stac_version" = none := getField_disjoint hdisj (by decide)
  have g₃ : getField extra "stac_extensions" = none := getField_disjoint hdisj (by decide)
  have g₄ : getField extra "id" = none := getField_disjoint hdisj (by decide)
  have g₅ : getField extra "description" = none := getField_disjoint hdisj (by decide)
  have g₆ : getField extra "links" = none := getField_disjoint hdisj (by decide)
  have hstrip := stripKeys_disjoint hdisj
  simp only [catalogKeys] at hstrip
  have hl : List.mapM.loop Link.fromJson (links.map Link.toJson) [] =
      Except.ok links :=
    mapM_loop_map_ok Link.fromJson Link.toJson links
      (fun l hlmem => link_roundtrip l (hlinks l hlmem))
  have hl' : (links.map Link.toJson).mapM Link.fromJson = Except.ok links := hl
  cases exts <;>
    simp [Catalog.toJson, Catalog.fromJson, serialize_type, deserialize_type,
      CATALOG_TYPE, reqStr, optStr, optStrList, reqLinks, getField,
      optEntryStr, optEntryStrList, mapM_getStrE, mapM_loop_getStrE,
      stripKeys_append, stripKeys_cons_mem, stripKeys_nil, catalogKeys,
      g₁, g₂, g₃, g₄, g₅, g₆, hstrip, hl, hl']

/-- Round trip for a well-formed Collection. -/
theorem collection_roundtrip (c : Collection) (h : c.wf = true) :
    ∃ j, Collection.toJson c = Except.ok j ∧
      Collection.fromJson j = Except.ok { c with href := none } := by
  obtain ⟨ty, ver, exts, id, desc, ext, prov, summ, ass, links, extra, href⟩ := c
  simp [Collection.wf] at h
  obtain ⟨⟨hty, hdisj⟩, hlinks⟩ := h
  subst hty
  have g₁ : getField extra "type" = none := getField_disjoint hdisj (by decide)
  have g₂ : getField extra "stac_version" = none := getField_disjoint hdisj (by decide)
  have g₃ : getField extra "stac_extensions" = none := getField_disjoint hdisj (by decide)
  have g₄ : getField extra "id" = none := getField_disjoint hdisj (by decide)
  have g₅ : getField extra "description" = none := getField_disjoint hdisj (by decide)
  have g₆ : getField extra "extent" = none := getField_disjoint hdisj (by decide)
  have g₇ : getField extra "providers" = none := getField_disjoint hdisj (by decide)
  have g₈ : getField extra "summaries" = none := getField_disjoint hdisj (by decide)
  have g₉ : getField extra "assets" = none := getField_disjoint hdisj (by decide)
  have g₁₀ : getField extra "links" = none := getField_disjoint hdisj (by decide)
  have hstrip := stripKeys_disjoint hdisj
  simp only [collectionKeys] at hstrip
  have hl : List.mapM.loop Link.fromJson (links.map Link.toJson) [] =
      Except.ok links :=
    mapM_loop_map_ok Link.fromJson Link.toJson links
      (fun l hlmem => link_roundtrip l (hlinks l hlmem))
  have hl' : (links.map Link.toJson).mapM Link.fromJson = Except.ok links := hl
  cases exts <;> cases prov <;> cases summ <;> cases ass <;>
    simp [Collection.toJson, Collection.fromJson, serialize_type, deserialize_type,
      COLLECTION_TYPE, reqStr, optStr, optStrList, reqJson, reqLinks, getField,
      optEntryStr, optEntryJson, optEntryStrList, mapM_getStrE, mapM_loop_getStrE,
      stripKeys_append, stripKeys_cons_mem, stripKeys_nil, collectionKeys,
      g₁, g₂, g₃, g₄, g₅, g₆, g₇, g₈, g₉, g₁₀, hstrip, hl, hl']

/-- Round trip for a list of well-formed Items. -/
theorem mapM_item_fromJson_toJson (items : List Item)
    (h : ∀ i ∈ items, i.wf = true) :
    ∃ js, items.mapM Item.toJson = Except.ok js ∧
      js.mapM Item.fromJson =
        Except.ok (items.map (fun i => { i with href := none })) := by
  induction items with
  | nil => exact ⟨[], rfl, rfl⟩
  | cons x rest ih =>
    obtain ⟨j, hj, hj'⟩ := item_roundtrip x (h x (List.mem_cons_self x rest))
    obtain ⟨js, hjs, hjs'⟩ := ih (fun y hy => h y (List.mem_cons_of_mem x hy))
    refine ⟨j :: js, ?_, ?_⟩
    · rw [← List.mapM'_eq_mapM] at hjs ⊢
      simp [List.mapM'_cons, hj, hjs]
    · rw [← List.mapM'_eq_mapM] at hjs' ⊢
      simp [List.mapM'_cons, hj', hjs']

/-- Round trip for a well-formed ItemCollection. -/
theorem itemCollection_roundtrip (ic : ItemCollection) (h : ic.wf = true) :
    ∃ j, ItemCollection.toJson ic = Except.ok j ∧
      ItemCollection.fromJson j = Except.ok
        { items := ic.items.map (fun i => { i with href := none }),
          href := none } := by
  obtain ⟨items, href⟩ := ic
  simp [ItemCollection.wf] at h
  obtain ⟨js, hjs, hjs'⟩ := mapM_item_fromJson_toJson items h
  have hjsl : List.mapM.loop Item.toJson items [] = Except.ok js := hjs
  have hjsl' : List.mapM.loop Item.fromJson js [] =
      Except.ok (items.map (fun i => { i with href := none })) := hjs'
  refine ⟨Json.arr js, ?_, ?_⟩
  · simp [ItemCollection.toJson, hjs, hjsl]
  · simp [ItemCollection.fromJson, hjs', hjsl']

/-- Serialization of an Item ignores the side-band href. -/
theorem item_toJson_href (i : Item) (h : Option String) :
    Item.toJson { i with href := h } = Item.toJson i := rfl

/-- Serialization of a Catalog ignores the side-band href. -/
theorem catalog_toJson_href (c : Catalog) (h : Option String) :
    Catalog.toJson { c with href := h } = Catalog.toJson c := rfl

/-- Serialization of a Collection ignores the side-band href. -/
theorem collection_toJson_href (c : Collection) (h : Option String) :
    Collection.toJson { c with href := h } = Collection.toJson c := rfl

/-- Serialization of an ItemCollection ignores the side-band href. -/
theorem itemCollection_toJson_href (ic : ItemCollection) (h : Option String) :
    ItemCollection.toJson { ic with href := h } = ItemCollection.toJson ic := rfl

/-- A parsed Item carries the Item discriminator constant. -/
theorem item_fromJson_type {j : Json} {i : Item}
    (h : Item.fromJson j = Except.ok i) : i.type = ITEM_TYPE := by
  cases j with
  | obj fields =>
    simp only [Item.fromJson] at h
    obtain ⟨tRaw, h₁, h⟩ := exc_bind_ok h
    obtain ⟨t, h₂, h⟩ := exc_bind_ok h
    obtain ⟨ver, h₃, h⟩ := exc_bind_ok h
    obtain ⟨exts, h₄, h⟩ := exc_bind_ok h
    obtain ⟨id, h₅, h⟩ := exc_bind_ok h
    obtain ⟨props, h₆, h⟩ := exc_bind_ok h
    obtain ⟨links, h₇, h⟩ := exc_bind_ok h
    obtain ⟨assets, h₈, h⟩ := exc_bind_ok h
    obtain ⟨coll, h₉, h⟩ := exc_bind_ok h
    rw [Except.ok.injEq] at h
    subst h
    exact (deserialize_type_ok h₂).2
  | null => simp [Item.fromJson] at h
  | bool b => simp [Item.fromJson] at h
  | num n => simp [Item.fromJson] at h
  | str s => simp [Item.fromJson] at h
  | arr elems => simp [Item.fromJson] at h

/-- A parsed Catalog carries the Catalog discriminator constant. -/
theorem catalog_fromJson_type {j : Json} {c : Catalog}
    (h : Catalog.fromJson j = Except.ok c) : c.type = CATALOG_TYPE := by
  cases j with
  | obj fields =>
    simp only [Catalog.fromJson] at h
    obtain ⟨tRaw, h₁, h⟩ := exc_bind_ok h
    obtain ⟨t, h₂, h⟩ := exc_bind_ok h
    obtain ⟨ver, h₃, h⟩ := exc_bind_ok h
    obtain ⟨exts, h₄, h⟩ := exc_bind_ok h
    obtain ⟨id, h₅, h⟩ := exc_bind_ok h
    obtain ⟨desc, h₆, h⟩ := exc_bind_ok h
    obtain ⟨links, h₇, h⟩ := exc_bind_ok h
    rw [Except.ok.injEq] at h
    subst h
    exact (deserialize_type_ok h₂).2
  | null => simp [Catalog.fromJson] at h
  | bool b => simp [Catalog.fromJson] at h
  | num n => simp [Catalog.fromJson] at h
  | str s => simp [Catalog.fromJson] at h
  | arr elems => simp [Catalog.fromJson] at h

/-- A parsed Collection carries the Collection discriminator
constant. -/
theorem collection_fromJson_type {j : Json} {c : Collection}
    (h : Collection.fromJson j = Except.ok c) : c.type = COLLECTION_TYPE := by
  cases j with
  | obj fields =>
    simp only [Collection.fromJson] at h
    obtain ⟨tRaw, h₁, h⟩ := exc_bind_ok h
    obtain ⟨t, h₂, h⟩ := exc_bind_ok h
    obtain ⟨ver, h₃, h⟩ := exc_bind_ok h
    obtain ⟨exts, h₄, h⟩ := exc_bind_ok h
    obtain ⟨id, h₅, h⟩ := exc_bind_ok h
    obtain ⟨desc, h₆, h⟩ := exc_bind_ok h
    obtain ⟨ext, h₇, h⟩ := exc_bind_ok h
    obtain ⟨links, h₈, h⟩ := exc_bind_ok h
    rw [Except.ok.injEq] at h
    subst h
    exact (deserialize_type_ok h₂).2
  | null => simp [Collection.fromJson] at h
  | bool b => simp [Collection.fromJson] at h
  | num n => simp [Collection.fromJson] at h
  | str s => simp [Collection.fromJson] at h
  | arr elems => simp [Collection.fromJson] at h

/-- Serializing an Item whose discriminator equals the constant
succeeds. -/
theorem item_toJson_total {i : Item} (h : i.type = ITEM_TYPE) :
    ∃ j, Item.toJson i = Except.ok j := by
  simp only [Item.toJson, h, serialize_type_self, exc_ok_bind]
  exact ⟨_, rfl⟩

/-- Serializing a Catalog whose discriminator equals the constant
succeeds. -/
theorem catalog_toJson_total {c : Catalog} (h : c.type = CATALOG_TYPE) :
    ∃ j, Catalog.toJson c = Except.ok j := by
  simp only [Catalog.toJson, h, serialize_type_self, exc_ok_bind]
  exact ⟨_, rfl⟩

/-- Serializing a Collection whose discriminator equals the constant
succeeds. -/
theorem collection_toJson_total {c : Collection} (h : c.type = COLLECTION_TYPE) :
    ∃ j, Collection.toJson c = Except.ok j := by
  simp only [Collection.toJson, h, serialize_type_self, exc_ok_bind]
  exact ⟨_, rfl⟩

/-- Destructor for a failed bind. -/
theorem exc_bind_error {E A B : Type} {x : Except E A} {f : A → Except E B}
    {e : E} (h : x >>= f = Except.error e) :
    x = Except.error e ∨ ∃ a, x = Except.ok a ∧ f a = Except.error e := by
  cases x with
  | error e₁ =>
    rw [exc_error_bind] at h
    obtain rfl : e₁ = e := by simpa using h
    exact Or.inl rfl
  | ok a => exact Or.inr ⟨a, rfl, h⟩

/-- Destructor for a failed map. -/
theorem exc_map_error_eq {E A B : Type} {x : Except E A} {g : A → B} {e : E}
    (h : x.map g = Except.error e) : x = Except.error e := by
  cases x with
  | error e₁ => simpa using h
  | ok a => exact absurd h (by simp)

/-- `reqStr` fails only with parse errors. -/
theorem reqStr_error {fields : List (String × Json)} {key : String} {e : Error}
    (h : reqStr fields key = Except.error e) : e.isParse = true := by
  unfold reqStr at h
  split at h <;>
    first
    | (simp at h; subst h; rfl)
    | simp at h

/-- `optStr` fails only with parse errors. -/
theorem optStr_error {fields : List (String × Json)} {key : String} {e : Error}
    (h : optStr fields key = Except.error e) : e.isParse = true := by
  unfold optStr at h
  split at h <;>
    first
    | (simp at h; subst h; rfl)
    | simp at h

/-- `reqJson` fails only with parse errors. -/
theorem reqJson_error {fields : List (String × Json)} {key : String} {e : Error}
    (h : reqJson fields key = Except.error e) : e.isParse = true := by
  unfold reqJson at h
  split at h <;>
    first
    | (simp at h; subst h; rfl)
    | simp at h

/-- `getStrE` fails only with parse errors. -/
theorem getStrE_error {j : Json} {e : Error}
    (h : getStrE j = Except.error e) : e.isParse = true := by
  unfold getStrE at h
  split at h <;>
    first
    | (simp at h; subst h; rfl)
    | simp at h

/-- `deserialize_type` fails only with parse errors. -/
theorem deserialize_type_error {s expected : String} {e : Error}
    (h : deserialize_type s expected = Except.error e) : e.isParse = true := by
  unfold deserialize_type at h
  split at h <;>
    first
    | (simp at h; subst h; rfl)
    | simp at h

/-- `optStrList` fails only with parse errors. -/
theorem optStrList_error {fields : List (String × Json)} {key : String}
    {e : Error} (h : optStrList fields key = Except.error e) :
    e.isParse = true := by
  unfold optStrList at h
  split at h
  · obtain ⟨x, _, hx⟩ := mapM_error_mem (exc_map_error_eq h)
    exact getStrE_error hx
  · simp at h; subst h; rfl
  · simp at h

/-- `Link.fromJson` fails only with parse errors. -/
theorem link_fromJson_error {j : Json} {e : Error}
    (h : Link.fromJson j = Except.error e) : e.isParse = true := by
  cases j with
  | obj fields =>
    simp only [Link.fromJson] at h
    rcases exc_bind_error h with h₁ | ⟨href, _, h⟩
    · exact reqStr_error h₁
    rcases exc_bind_error h with h₁ | ⟨rel, _, h⟩
    · exact reqStr_error h₁
    rcases exc_bind_error h with h₁ | ⟨mt, _, h⟩
    · exact optStr_error h₁
    rcases exc_bind_error h with h₁ | ⟨ti, _, h⟩
    · exact optStr_error h₁
    simp at h
  | null => simp [Link.fromJson] at h; subst h; rfl
  | bool b => simp [Link.fromJson] at h; subst h; rfl
  | num n => simp [Link.fromJson] at h; subst h; rfl
  | str s => simp [Link.fromJson] at h; subst h; rfl
  | arr elems => simp [Link.fromJson] at h; subst h; rfl

/-- `Asset.fromJson` fails only with parse errors. -/
theorem asset_fromJson_error {j : Json} {e : Error}
    (h : Asset.fromJson j = Except.error e) : e.isParse = true := by
  cases j with
  | obj fields =>
    simp only [Asset.fromJson] at h
    rcases exc_bind_error h with h₁ | ⟨href, _, h⟩
    · exact reqStr_error h₁
    rcases exc_bind_error h with h₁ | ⟨ti, _, h⟩
    · exact optStr_error h₁
    rcases exc_bind_error h with h₁ | ⟨de, _, h⟩
    · exact optStr_error h₁
    rcases exc_bind_error h with h₁ | ⟨mt, _, h⟩
    · exact optStr_error h₁
    rcases exc_bind_error h with h₁ | ⟨ro, _, h⟩
    · exact optStrList_error h₁
    simp at h
  | null => simp [Asset.fromJson] at h; subst h; rfl
  | bool b => simp [Asset.fromJson] at h; subst h; rfl
  | num n => simp [Asset.fromJson] at h; subst h; rfl
  | str s => simp [Asset.fromJson] at h; subst h; rfl
  | arr elems => simp [Asset.fromJson] at h; subst h; rfl

/-- `reqLinks` fails only with parse errors. -/
theorem reqLinks_error {fields : List (String × Json)} {e : Error}
    (h : reqLinks fields = Except.error e) : e.isParse = true := by
  unfold reqLinks at h
  split at h
  · obtain ⟨x, _, hx⟩ := mapM_error_mem h
    exact link_fromJson_error hx
  · simp at h; subst h; rfl
  · simp at h; subst h; rfl

/-- `reqAssets` fails only with parse errors. -/
theorem reqAssets_error {fields : List (String × Json)} {e : Error}
    (h : reqAssets fields = Except.error e) : e.isParse = true := by
  unfold reqAssets at h
  split at h
  · obtain ⟨x, _, hx⟩ := mapM_error_mem h
    exact asset_fromJson_error (exc_map_error_eq hx)
  · simp at h; subst h; rfl
  · simp at h; subst h; rfl

/-- `Item.fromJson` fails only with parse errors. -/
theorem item_fromJson_error {j : Json} {e : Error}
    (h : Item.fromJson j = Except.error e) : e.isParse = true := by
  cases j with
  | obj fields =>
    simp only [Item.fromJson] at h
    rcases exc_bind_error h with h₁ | ⟨tRaw, _, h⟩
    · exact reqStr_error h₁
    rcases exc_bind_error h with h₁ | ⟨t, _, h⟩
    · exact deserialize_type_error h₁
    rcases exc_bind_error h with h₁ | ⟨ver, _, h⟩
    · exact reqStr_error h₁
    rcases exc_bind_error h with h₁ | ⟨exts, _, h⟩
    · exact optStrList_error h₁
    rcases exc_bind_error h with h₁ | ⟨id, _, h⟩
    · exact reqStr_error h₁
    rcases exc_bind_error h with h₁ | ⟨props, _, h⟩
    · exact reqJson_error h₁
    rcases exc_bind_error h with h₁ | ⟨links, _, h⟩
    · exact reqLinks_error h₁
    rcases exc_bind_error h with h₁ | ⟨assets, _, h⟩
    · exact reqAssets_error h₁
    rcases exc_bind_error h with h₁ | ⟨coll, _, h⟩
    · exact optStr_error h₁
    simp at h
  | null => simp [Item.fromJson] at h; subst h; rfl
  | bool b => simp [Item.fromJson] at h; subst h; rfl
  | num n => simp [Item.fromJson] at h; subst h; rfl
  | str s => simp [Item.fromJson] at h; subst h; rfl
  | arr elems => simp [Item.fromJson] at h; subst h; rfl

/-- `Catalog.fromJson` fails only with parse errors. -/
theorem catalog_fromJson_error {j : Json} {e : Error}
    (h : Catalog.fromJson j = Except.error e) : e.isParse = true := by
  cases j with
  | obj fields =>
    simp only [Catalog.fromJson] at h
    rcases exc_bind_error h with h₁ | ⟨tRaw, _, h⟩
    · exact reqStr_error h₁
    rcases exc_bind_error h with h₁ | ⟨t, _, h⟩
    · exact deserialize_type_error h₁
    rcases exc_bind_error h with h₁ | ⟨ver, _, h⟩
    · exact reqStr_error h₁
    rcases exc_bind_error h with h₁ | ⟨exts, _, h⟩
    · exact optStrList_error h₁
    rcases exc_bind_error h with h₁ | ⟨id, _, h⟩
    · exact reqStr_error h₁
    rcases exc_bind_error h with h₁ | ⟨desc, _, h⟩
    · exact reqStr_error h₁
    rcases exc_bind_error h with h₁ | ⟨links, _, h⟩
    · exact reqLinks_error h₁
    simp at h
  | null => simp [Catalog.fromJson] at h; subst h; rfl
  | bool b => simp [Catalog.fromJson] at h; subst h; rfl
  | num n => simp [Catalog.fromJson] at h; subst h; rfl
  | str s => simp [Catalog.fromJson] at h; subst h; rfl
  | arr elems => simp [Catalog.fromJson] at h; subst h; rfl

/-- `Collection.fromJson` fails only with parse errors. -/
theorem collection_fromJson_error {j : Json} {e : Error}
    (h : Collection.fromJson j = Except.error e) : e.isParse = true := by
  cases j with
  | obj fields =>
    simp only [Collection.fromJson] at h
    rcases exc_bind_error h with h₁ | ⟨tRaw, _, h⟩
    · exact reqStr_error h₁
    rcases exc_bind_error h with h₁ | ⟨t, _, h⟩
    · exact deserialize_type_error h₁
    rcases exc_bind_error h with h₁ | ⟨ver, _, h⟩
    · exact reqStr_error h₁
    rcases exc_bind_error h with h₁ | ⟨exts, _, h⟩
    · exact optStrList_error h₁
    rcases exc_bind_error h with h₁ | ⟨id, _, h⟩
    · exact reqStr_error h₁
    rcases exc_bind_error h with h₁ | ⟨desc, _, h⟩
    · exact reqStr_error h₁
    rcases exc_bind_error h with h₁ | ⟨ext, _, h⟩
    · exact reqJson_error h₁
    rcases exc_bind_error h with h₁ | ⟨links, _, h⟩
    · exact reqLinks_error h₁
    simp at h
  | null => simp [Collection.fromJson] at h; subst h; rfl
  | bool b => simp [Collection.fromJson] at h; subst h; rfl
  | num n => simp [Collection.fromJson] at h; subst h; rfl
  | str s => simp [Collection.fromJson] at h; subst h; rfl
  | arr elems => simp [Collection.fromJson] at h; subst h; rfl

/-- `ItemCollection.fromJson` fails only with parse errors. -/
theorem itemCollection_fromJson_error {j : Json} {e : Error}
    (h : ItemCollection.fromJson j = Except.error e) : e.isParse = true := by
  cases j with
  | arr elems =>
    simp only [ItemCollection.fromJson] at h
    obtain ⟨x, _, hx⟩ := mapM_error_mem (exc_map_error_eq h)
    exact item_fromJson_error hx
  | null => simp [ItemCollection.fromJson] at h; subst h; rfl
  | bool b => simp [ItemCollection.fromJson] at h; subst h; rfl
  | num n => simp [ItemCollection.fromJson] at h; subst h; rfl
  | str s => simp [ItemCollection.fromJson] at h; subst h; rfl
  | obj fields => simp [ItemCollection.fromJson] at h; subst h; rfl

/-- `Value.fromJson` fails only with parse errors. -/
theorem value_fromJson_error {j : Json} {e : Error}
    (h : Value.fromJson j = Except.error e) : e.isParse = true := by
  cases j with
  | arr elems =>
    simp only [Value.fromJson] at h
    exact itemCollection_fromJson_error (exc_map_error_eq h)
  | obj fields =>
    simp only [Value.fromJson] at h
    split at h
    · split at h
      · exact item_fromJson_error (exc_map_error_eq h)
      · split at h
        · exact catalog_fromJson_error (exc_map_error_eq h)
        · split at h
          · exact collection_fromJson_error (exc_map_error_eq h)
          · simp at h; subst h; rfl
    · simp at h; subst h; rfl
    · simp at h; subst h; rfl
  | null => simp [Value.fromJson] at h; subst h; rfl
  | bool b => simp [Value.fromJson] at h; subst h; rfl
  | num n => simp [Value.fromJson] at h; subst h; rfl
  | str s => simp [Value.fromJson] at h; subst h; rfl

/-- The Href setter stores exactly the given location. -/
theorem Value.href_set_href (v : Value) (s : String) :
    (v.set_href s).href = some s := by
  cases v <;> rfl

/-- A successful read returns a document whose href is the location it
was read from. -/
theorem read_ok_href {fetch : String → Except String Json} {location : String}
    {v : Value} (h : stac.read fetch location = Except.ok v) :
    v.href = some location := by
  unfold stac.read at h
  split at h
  · simp at h
  · split at h
    · simp at h
    · split at h
      · simp at h
      · rw [Except.ok.injEq] at h
        subst h
        exact Value.href_set_href _ _
/-- A URL location fails with unsupported-location, for every fetch
collaborator (so no fetch is consulted). -/
theorem read_url {fetch : String → Except String Json} {location : String}
    (h : isUrl location = true) :
    stac.read fetch location = Except.error (Error.unsupportedLocation location) := by
  unfold stac.read
  rw [if_pos h]

/-- Every outcome of read is a parsed document, a parse error, an I/O
error, or the unsupported-location error. -/
theorem read_classified (fetch : String → Except String Json)
    (location : String) :
    (∃ v, stac.read fetch location = Except.ok v) ∨
    (∃ e, stac.read fetch location = Except.error e ∧
      (e.isParse || e.isIoFailure || e.isUnsupportedLocation) = true) := by
  unfold stac.read
  split
  · exact Or.inr ⟨_, rfl, rfl⟩
  · split
    · exact Or.inr ⟨_, rfl, rfl⟩
    · split
      · next e he => exact Or.inr ⟨e, rfl, by simp [value_fromJson_error he]⟩
      · exact Or.inl ⟨_, rfl⟩

/-- Polymorphic dispatch sends a serialized well-formed Catalog to the
Catalog variant. -/
theorem Value.fromJson_of_catalog (c : Catalog) (hwf : c.wf = true) :
    ∃ j, Catalog.toJson c = Except.ok j ∧
      Value.fromJson j = Except.ok (Value.catalog { c with href := none }) := by
  obtain ⟨j, hj, hfrom⟩ := catalog_roundtrip c hwf
  refine ⟨j, hj, ?_⟩
  have hty : c.type = CATALOG_TYPE := by
    simp [Catalog.wf] at hwf
    exact hwf.1.1
  simp only [Catalog.toJson, hty, serialize_type_self, exc_ok_bind] at hj
  rw [Except.ok.injEq] at hj
  subst hj
  simp only [CATALOG_TYPE, List.cons_append, List.append_assoc, List.nil_append] at hfrom
  simp [Value.fromJson, getField, ITEM_TYPE, CATALOG_TYPE, COLLECTION_TYPE, hfrom]

/-- Polymorphic dispatch sends a serialized well-formed ItemCollection
(a JSON array of record bodies) to the sequence-of-Records variant. -/
theorem Value.fromJson_of_itemCollection (ic : ItemCollection)
    (hwf : ic.wf = true) :
    ∃ j, ItemCollection.toJson ic = Except.ok j ∧
      Value.fromJson j = Except.ok (Value.itemCollection
        { items := ic.items.map (fun i => { i with href := none }),
          href := none }) := by
  obtain ⟨j, hj, hfrom⟩ := itemCollection_roundtrip ic hwf
  refine ⟨j, hj, ?_⟩
  obtain ⟨js, hjs, harr⟩ := exc_map_eq_ok hj
  subst harr
  simp only [Value.fromJson, hfrom, exc_map_ok]

/-- Serialization is unaffected by clearing the hrefs of a list of
Items. -/
theorem mapM_toJson_clear (items : List Item) :
    (items.map (fun i => { i with href := none })).mapM Item.toJson =
      items.mapM Item.toJson := by
  rw [← List.mapM'_eq_mapM, ← List.mapM'_eq_mapM]
  induction items with
  | nil => rfl
  | cons x rest ih => simp [List.mapM'_cons, ih, item_toJson_href]

/-- C1: for every valid document of any kind (Item/Record, Catalog,
Collection, sequence-of-Records), serializing, deserializing, and
serializing again yields JSON equal to the first serialization —
unknown/foreign members, carried in the open additional-fields
mappings at every level, survive the round trip verbatim (the
deserialized document differs from the original only in the side-band
href, which serialization ignores). -/
theorem c1_roundtrip :
    (∀ i : Item, i.wf = true →
      (Item.toJson i >>= fun j => Item.fromJson j >>= Item.toJson) =
        Item.toJson i) ∧
    (∀ c : Catalog, c.wf = true →
      (Catalog.toJson c >>= fun j => Catalog.fromJson j >>= Catalog.toJson) =
        Catalog.toJson c) ∧
    (∀ c : Collection, c.wf = true →
      (Collection.toJson c >>= fun j =>
        Collection.fromJson j >>= Collection.toJson) = Collection.toJson c) ∧
    (∀ ic : ItemCollection, ic.wf = true →
      (ItemCollection.toJson ic >>= fun j =>
        ItemCollection.fromJson j >>= ItemCollection.toJson) =
        ItemCollection.toJson ic) := by
  refine ⟨?_, ?_, ?_, ?_⟩
  · intro i h
    obtain ⟨j, hj, hj'⟩ := item_roundtrip i h
    simp only [hj, exc_ok_bind, hj', item_toJson_href]
  · intro c h
    obtain ⟨j, hj, hj'⟩ := catalog_roundtrip c h
    simp only [hj, exc_ok_bind, hj', catalog_toJson_href]
  · intro c h
    obtain ⟨j, hj, hj'⟩ := collection_roundtrip c h
    simp only [hj, exc_ok_bind, hj', collection_toJson_href]
  · intro ic h
    obtain ⟨j, hj, hj'⟩ := itemCollection_roundtrip ic h
    simp only [hj, exc_ok_bind, hj']
    have hIC : ItemCollection.toJson
        { items := ic.items.map (fun i => { i with href := none }),
          href := none } = ItemCollection.toJson ic := by
      unfold ItemCollection.toJson
      rw [mapM_toJson_clear]
    rw [hIC]
    exact hj

/-- C1 witness: the round trip on a concrete Item with unknown members
at every level. -/
theorem c1_roundtrip_witness :
    itemW.wf = true ∧
    (Item.toJson itemW >>= fun j => Item.fromJson j >>= Item.toJson) =
      Item.toJson itemW :=
  ⟨by decide, c1_roundtrip.1 itemW (by decide)⟩

/-- C2: deserialization accepts a raw discriminator string only when
it equals the expected constant exactly; any other string fails with a
type-mismatch error carrying both the expected and the actual string —
in particular a record-shaped body with the catalog discriminator. -/
theorem c2_discriminator_rejection :
    (∀ s expected : String,
      (deserialize_type s expected = Except.ok s ↔ s = expected)) ∧
    (∀ s expected : String, s ≠ expected →
      deserialize_type s expected =
        Except.error (Error.invalidValue s expected)) ∧
    (∀ fields : List (String × Json),
      getField fields "type" = some (Json.str CATALOG_TYPE) →
      Item.fromJson (Json.obj fields) =
        Except.error (Error.invalidValue CATALOG_TYPE ITEM_TYPE)) := by
  refine ⟨?_, ?_, ?_⟩
  · intro s expected
    constructor
    · intro h
      exact (deserialize_type_ok h).2.symm ▸ rfl
    · intro h
      subst h
      exact deserialize_type_self s
  · intro s expected h
    exact deserialize_type_ne h
  · intro fields hget
    simp only [Item.fromJson, reqStr, hget, exc_ok_bind]
    simp [deserialize_type, CATALOG_TYPE, ITEM_TYPE]

/-- C2 witness: the catalog discriminator on a record-shaped body at a
concrete input. -/
theorem c2_discriminator_rejection_witness :
    ("Catalog" : String) ≠ "Feature" ∧
    deserialize_type "Catalog" "Feature" =
      Except.error (Error.invalidValue "Catalog" "Feature") :=
  ⟨by decide, c2_discriminator_rejection.2.1 "Catalog" "Feature" (by decide)⟩

/-- C3: serializing a document whose in-memory discriminator has been
mutated away from its kind's constant fails with an error naming both
strings rather than emitting the mismatched discriminator; when the
field equals the constant, serialization of the field succeeds. -/
theorem c3_serialize_mutated :
    (∀ t expected : String, t ≠ expected →
      serialize_type t expected = Except.error (Error.serCustom
        ("type field must be '" ++ expected ++ "', got: '" ++ t ++ "'"))) ∧
    (∀ t expected : String, t = expected →
      serialize_type t expected = Except.ok t) ∧
    (∀ i : Item, i.type ≠ ITEM_TYPE →
      Item.toJson i = Except.error (Error.serCustom
        ("type field must be '" ++ ITEM_TYPE ++ "', got: '" ++ i.type ++ "'"))) ∧
    (∀ c : Catalog, c.type ≠ CATALOG_TYPE →
      Catalog.toJson c = Except.error (Error.serCustom
        ("type field must be '" ++ CATALOG_TYPE ++ "', got: '" ++
          c.type ++ "'"))) ∧
    (∀ c : Collection, c.type ≠ COLLECTION_TYPE →
      Collection.toJson c = Except.error (Error.serCustom
        ("type field must be '" ++ COLLECTION_TYPE ++ "', got: '" ++
          c.type ++ "'"))) := by
  refine ⟨?_, ?_, ?_, ?_, ?_⟩
  · intro t expected h
    exact serialize_type_ne h
  · intro t expected h
    subst h
    exact serialize_type_self t
  · intro i h
    simp only [Item.toJson, serialize_type_ne h, exc_error_bind]
  · intro c h
    simp only [Catalog.toJson, serialize_type_ne h, exc_error_bind]
  · intro c h
    simp only [Collection.toJson, serialize_type_ne h, exc_error_bind]

/-- C3 witness: serializing a concrete Item with a mutated
discriminator fails with the descriptive error. -/
theorem c3_serialize_mutated_witness :
    itemBadW.type ≠ ITEM_TYPE ∧
    Item.toJson itemBadW = Except.error (Error.serCustom
      ("type field must be '" ++ ITEM_TYPE ++ "', got: '" ++
        itemBadW.type ++ "'")) :=
  ⟨by decide, c3_serialize_mutated.2.2.1 itemBadW (by decide)⟩

/-- C4: the discriminator check, when it succeeds, returns the string
unchanged and that string equals the expected constant; documents
obtained from the kind constructors or from successful deserialization
always carry their kind's constant. -/
theorem c4_discriminator_invariant :
    (∀ s expected t : String, deserialize_type s expected = Except.ok t →
      t = s ∧ t = expected) ∧
    (∀ id, (Item.new id).type = ITEM_TYPE) ∧
    (∀ id description, (Catalog.new id description).type = CATALOG_TYPE) ∧
    (∀ id description,
      (Collection.new id description).type = COLLECTION_TYPE) ∧
    (∀ (j : Json) (i : Item), Item.fromJson j = Except.ok i →
      i.type = ITEM_TYPE) ∧
    (∀ (j : Json) (c : Catalog), Catalog.fromJson j = Except.ok c →
      c.type = CATALOG_TYPE) ∧
    (∀ (j : Json) (c : Collection), Collection.fromJson j = Except.ok c →
      c.type = COLLECTION_TYPE) := by
  refine ⟨?_, ?_, ?_, ?_, ?_, ?_, ?_⟩
  · intro s expected t h
    exact deserialize_type_ok h
  · intro id
    rfl
  · intro id description
    rfl
  · intro id description
    rfl
  · intro j i h
    exact item_fromJson_type h
  · intro j c h
    exact catalog_fromJson_type h
  · intro j c h
    exact collection_fromJson_type h

/-- C4 witness: the discriminator check at the Item constant. -/
theorem c4_discriminator_invariant_witness :
    deserialize_type "Feature" "Feature" = Except.ok "Feature" ∧
    ("Feature" : String) = "Feature" ∧ ("Feature" : String) = "Feature" :=
  ⟨rfl, c4_discriminator_invariant.1 "Feature" "Feature" "Feature" rfl⟩

/-- C5: resolving the relative Link href "item.json" against a
document href "https://example.org/catalog.json" yields
"https://example.org/item.json"; with no document href, resolution
fails with the unresolved-href error, which is distinct from the
invalid-location (malformed URL) error. -/
theorem c5_relative_resolution :
    resolve_href (some "https://example.org/catalog.json") "item.json" =
      Except.ok "https://example.org/item.json" ∧
    resolve_href none "item.json" = Except.error Error.unresolvedHref ∧
    (∀ loc, Error.unresolvedHref ≠ Error.invalidLocation loc) := by
  refine ⟨?_, ?_, ?_⟩
  · rfl
  · rfl
  · intro loc h
    exact Error.noConfusion h

/-- C5 witness: the two error kinds are distinct at a concrete
location. -/
theorem c5_relative_resolution_witness :
    Error.unresolvedHref ≠ Error.invalidLocation "item.json" :=
  c5_relative_resolution.2.2 "item.json"

/-- C6: polymorphic dispatch — a JSON array of record bodies parses as
the sequence-of-Records variant; an object with the catalog
discriminator parses as the Catalog variant; a discriminator matching
none of the three kinds, or a missing discriminator, fails with a
parse error naming the "type" field. -/
theorem c6_polymorphic_dispatch :
    (∀ ic : ItemCollection, ic.wf = true →
      ∃ j, ItemCollection.toJson ic = Except.ok j ∧
        Value.fromJson j = Except.ok (Value.itemCollection
          { items := ic.items.map (fun i => { i with href := none }),
            href := none })) ∧
    (∀ c : Catalog, c.wf = true →
      ∃ j, Catalog.toJson c = Except.ok j ∧
        Value.fromJson j = Except.ok (Value.catalog { c with href := none })) ∧
    (∀ (fields : List (String × Json)) (t : String),
      getField fields "type" = some (Json.str t) →
      t ≠ ITEM_TYPE → t ≠ CATALOG_TYPE → t ≠ COLLECTION_TYPE →
      Value.fromJson (Json.obj fields) =
        Except.error (Error.invalidValue t "type")) ∧
    (∀ fields : List (String × Json), getField fields "type" = none →
      Value.fromJson (Json.obj fields) =
        Except.error (Error.missingField "type")) := by
  refine ⟨?_, ?_, ?_, ?_⟩
  · intro ic h
    exact Value.fromJson_of_itemCollection ic h
  · intro c h
    exact Value.fromJson_of_catalog c h
  · intro fields t hget h₁ h₂ h₃
    simp [Value.fromJson, hget, h₁, h₂, h₃]
  · intro fields hget
    simp [Value.fromJson, hget]

/-- C6 witness: a missing discriminator at the concrete empty object
fails naming the "type" field. -/
theorem c6_polymorphic_dispatch_witness :
    getField [] "type" = none ∧
    Value.fromJson (Json.obj []) =
      Except.error (Error.missingField "type") :=
  ⟨rfl, c6_polymorphic_dispatch.2.2.2 [] rfl⟩

/-- C7: a successful read returns a document whose href equals exactly
the location it was read from (the href setter runs before the I/O
boundary returns); a document built via a kind constructor has no href
until one is explicitly set. -/
theorem c7_href_lifecycle :
    (∀ (fetch : String → Except String Json) (location : String) (v : Value),
      stac.read fetch location = Except.ok v → v.href = some location) ∧
    (∀ id, (Item.new id).href = none) ∧
    (∀ id description, (Catalog.new id description).href = none) ∧
    (∀ id description, (Collection.new id description).href = none) := by
  refine ⟨?_, ?_, ?_, ?_⟩
  · intro fetch location v h
    exact read_ok_href h
  · intro id
    rfl
  · intro id description
    rfl
  · intro id description
    rfl

/-- C7 witness: a concrete read sets the href to the location. -/
theorem c7_href_lifecycle_witness :
    stac.read fetchW "data/catalog.json" = Except.ok valueW ∧
    valueW.href = some "data/catalog.json" :=
  ⟨rfl, c7_href_lifecycle.1 fetchW "data/catalog.json" valueW rfl⟩

/-- C8: with network support absent, a URL location fails with the
dedicated unsupported-location error without consulting the fetch
collaborator (the outcome is the same for every fetch); every outcome
of read is a parsed document, a parse error, an I/O error, or the
unsupported-location error. -/
theorem c8_unsupported_transport :
    (∀ (fetch : String → Except String Json) (location : String),
      isUrl location = true →
      stac.read fetch location =
        Except.error (Error.unsupportedLocation location)) ∧
    (∀ (f₁ f₂ : String → Except String Json) (location : String),
      isUrl location = true →
      stac.read f₁ location = stac.read f₂ location) ∧
    (∀ (fetch : String → Except String Json) (location : String),
      (∃ v, stac.read fetch location = Except.ok v) ∨
      (∃ e, stac.read fetch location = Except.error e ∧
        (e.isParse || e.isIoFailure || e.isUnsupportedLocation) = true)) := by
  refine ⟨?_, ?_, ?_⟩
  · intro fetch location h
    exact read_url h
  · intro f₁ f₂ location h
    rw [read_url h, read_url h]
  · intro fetch location
    exact read_classified fetch location

/-- C8 witness: a concrete URL location fails with
unsupported-location. -/
theorem c8_unsupported_transport_witness :
    isUrl "https://example.org/catalog.json" = true ∧
    stac.read fetchW "https://example.org/catalog.json" =
      Except.error
        (Error.unsupportedLocation "https://example.org/catalog.json") :=
  ⟨by decide,
   c8_unsupported_transport.1 fetchW "https://example.org/catalog.json"
     (by decide)⟩

/-- C9: the serialized JSON body never contains the document's origin
location — serializing with the href set (or set to anything) produces
the same JSON as serializing with it unset, for every kind and for the
polymorphic value under the Href setter. -/
theorem c9_href_side_band :
    (∀ (i : Item) (h : Option String),
      Item.toJson { i with href := h } = Item.toJson i) ∧
    (∀ (c : Catalog) (h : Option String),
      Catalog.toJson { c with href := h } = Catalog.toJson c) ∧
    (∀ (c : Collection) (h : Option String),
      Collection.toJson { c with href := h } = Collection.toJson c) ∧
    (∀ (ic : ItemCollection) (h : Option String),
      ItemCollection.toJson { ic with href := h } = ItemCollection.toJson ic) ∧
    (∀ (v : Value) (s : String),
      Value.toJson (v.set_href s) = Value.toJson v) := by
  refine ⟨?_, ?_, ?_, ?_, ?_⟩
  · intro i h
    exact item_toJson_href i h
  · intro c h
    exact catalog_toJson_href c h
  · intro c h
    exact collection_toJson_href c h
  · intro ic h
    exact itemCollection_toJson_href ic h
  · intro v s
    cases v <;> rfl

/-- C10: whenever the deserialization-side discriminator check accepts
a string, the serialization-side check accepts it too and emits it
unchanged; hence a document that parsed successfully can always
re-serialize without error. -/
theorem c10_parse_serialize_compat :
    (∀ s expected t : String, deserialize_type s expected = Except.ok t →
      serialize_type t expected = Except.ok t) ∧
    (∀ (j : Json) (i : Item), Item.fromJson j = Except.ok i →
      ∃ out, Item.toJson i = Except.ok out) ∧
    (∀ (j : Json) (c : Catalog), Catalog.fromJson j = Except.ok c →
      ∃ out, Catalog.toJson c = Except.ok out) ∧
    (∀ (j : Json) (c : Collection), Collection.fromJson j = Except.ok c →
      ∃ out, Collection.toJson c = Except.ok out) := by
  refine ⟨?_, ?_, ?_, ?_⟩
  · intro s expected t h
    obtain ⟨h₁, h₂⟩ := deserialize_type_ok h
    subst h₂
    exact serialize_type_self t
  · intro j i h
    exact item_toJson_total (item_fromJson_type h)
  · intro j c h
    exact catalog_toJson_total (catalog_fromJson_type h)
  · intro j c h
    exact collection_toJson_total (collection_fromJson_type h)

/-- C10 witness: the compatibility at the Item constant. -/
theorem c10_parse_serialize_compat_witness :
    deserialize_type "Feature" "Feature" = Except.ok "Feature" ∧
    serialize_type "Feature" "Feature" = Except.ok "Feature" :=
  ⟨rfl, c10_parse_serialize_compat.1 "Feature" "Feature" "Feature" rfl⟩
